import Mathlib

/-!
Shallow embedding of the `PendingBlock` class (pending-payload lifecycle
manager and transaction-inclusion algorithm) of the client's miner module.

The class keeps `pendingPayloads : [payloadId: Buffer, builder: BlockBuilder][]`
and exposes `start`, `stop`, `build`.  The Execution Engine (the VM's
`BlockBuilder`), the transaction pool and the chain-state lookups are external
collaborators: they are modelled as oracle parameters (`ApplyFn`, `finalize`,
the pool snapshot, `nextBaseFee`, `hasGetTotalDifficulty`), while the control
flow of `start` / `stop` / `build` is translated line by line from the source.

Gas quantities are `Int`, mirroring the source's `BigInt` arithmetic
(`gasLimit - BigInt(21000)` may go negative there, so `Nat` truncation would
be unfaithful).
-/

namespace PendingBlock

/-- 8-byte payload identifier (`randomBytes(8)` in the source); compared with
`Buffer.equals`, i.e. byte-for-byte equality, modelled as list equality. -/
abbrev PayloadId := List Nat

/-- a candidate transaction: the core inspects only its hash (its declared gas
limit stays inside the Execution Engine's `addTransaction`). -/
structure Tx where
  hash : Nat
  txGasLimit : Int
deriving DecidableEq, Repr

/-- errors `builder.addTransaction` can raise, as the source distinguishes
them: the dedicated message
`tx has a higher gas limit than the remaining gas in the block`
versus every other failure (bad nonce, underfunded sender, ...). -/
inductive AddTxError where
  | gasLimitExceedsRemaining
  | other (code : Nat)
deriving DecidableEq, Repr

/-- observable state of a `BlockBuilder` handle, holding exactly the fields
the `PendingBlock` class reads: `headerData.gasLimit`,
`headerData.baseFeePerGas`, `gasUsed` and `transactions`. -/
structure BuilderState where
  blockGasLimit : Int
  baseFeePerGas : Option Int
  gasUsed : Int
  transactions : List Tx
deriving DecidableEq, Repr

/-- outcome of one `builder.addTransaction(tx)` call. -/
inductive ApplyOutcome where
  | ok (b : BuilderState)
  | err (e : AddTxError)
deriving DecidableEq, Repr

/-- the Execution Engine's `addTransaction`, an external collaborator supplied
as an oracle: given the current builder state and a transaction it either
returns the updated builder state or fails. -/
abbrev ApplyFn := BuilderState → Tx → ApplyOutcome

/-- result of one inclusion pass: the final builder state, the `blockFull`
flag, and the candidates on which `addTransaction` was attempted, in order. -/
structure PassResult where
  builder : BuilderState
  blockFull : Bool
  attempted : List Tx
deriving DecidableEq, Repr

/-- the transaction-inclusion loop shared by `start` and `build`
(`while (index < txs.length && !blockFull) { try { await
builder.addTransaction(txs[index]) } catch ... } index++`): on the
gas-limit-exceeds-remaining error the block is declared full when
`builder.gasUsed > gasLimit - BigInt(21000)`, ending the loop; every other
error is logged and skipped. -/
def inclusionPass (applyTx : ApplyFn) (gasLimit : Int) :
    BuilderState → List Tx → PassResult
  | b, [] => ⟨b, false, []⟩
  | b, tx :: rest =>
    match applyTx b tx with
    | .ok b' =>
      let r := inclusionPass applyTx gasLimit b' rest
      ⟨r.builder, r.blockFull, tx :: r.attempted⟩
    | .err .gasLimitExceedsRemaining =>
      if b.gasUsed > gasLimit - 21000 then
        ⟨b, true, [tx]⟩
      else
        let r := inclusionPass applyTx gasLimit b rest
        ⟨r.builder, r.blockFull, tx :: r.attempted⟩
    | .err (.other _) =>
      let r := inclusionPass applyTx gasLimit b rest
      ⟨r.builder, r.blockFull, tx :: r.attempted⟩

/-- the `pendingPayloads` array: pairs of payload id and builder handle. -/
abbrev Registry := List (PayloadId × BuilderState)

/-- outcome of the Execution Engine's `revert()` call during `stop`; the
source fires it without awaiting (`void payload[1].revert()`), so `stop`
never observes it. -/
inductive RevertOutcome where
  | succeeded
  | failed
deriving DecidableEq, Repr

set_option linter.unusedVariables false in
/-- the `stop(payloadId)` method: find the payload by byte-equal id; if
absent, return; otherwise fire `revert()` (outcome unobserved) and filter
every byte-equal entry out of `pendingPayloads`. -/
def stop (revertOutcome : RevertOutcome) (st : Registry) (pid : PayloadId) :
    Registry :=
  match st.find? (fun p => p.1 == pid) with
  | none => st
  | some _ => st.filter (fun p => !(p.1 == pid))

/-- result of a `build(payloadId)` call: `notFound` models the `void` return
when the id is absent, `fatal` the uncaught exception of the finalize step
`builder.build()`, `ok` the returned `[block, receipts]` pair (kept opaque). -/
inductive BuildResult where
  | notFound
  | fatal
  | ok (blk : Nat)
deriving DecidableEq, Repr

/-- the candidate filter of `build`: keep only pool transactions whose hash is
not among the builder's already-included transactions
(`.some((t) => t.hash().equals(tx.hash())) === false`). -/
def dedupAgainstIncluded (included : List Tx) (pool : List Tx) : List Tx :=
  pool.filter (fun tx => !(included.any (fun t => t.hash == tx.hash)))

/-- in-place mutation of the builder object found by `find`: the first entry
with a byte-equal id gets the updated builder state, later entries keep
their own handles. -/
def setBuilderFirst : Registry → PayloadId → BuilderState → Registry
  | [], _, _ => []
  | p :: rest, pid, b =>
    if p.1 == pid then (p.1, b) :: rest
    else p :: setBuilderFirst rest pid b

/-- the `build(payloadId)` method: look up the payload (absent ⇒ `notFound`);
filter the fresh pool snapshot against the builder's included transactions;
run the inclusion loop; call `builder.build()` — a failure there propagates
uncaught, leaving the (mutated) payload registered — otherwise filter every
byte-equal entry out of `pendingPayloads` and return the block.  The third
component reports the candidates attempted by the pass. -/
def build (applyTx : ApplyFn) (finalize : BuilderState → Option Nat)
    (pool : List Tx) (st : Registry) (pid : PayloadId) :
    Registry × BuildResult × List Tx :=
  match st.find? (fun p => p.1 == pid) with
  | none => (st, .notFound, [])
  | some payload =>
    let r := inclusionPass applyTx payload.2.blockGasLimit payload.2
      (dedupAgainstIncluded payload.2.transactions pool)
    match finalize r.builder with
    | none => (setBuilderFirst st pid r.builder, .fatal, r.attempted)
    | some blk => (st.filter (fun p => !(p.1 == pid)), .ok blk, r.attempted)

/-- instructions `start` issues to its collaborators, in program order. -/
inductive EngineEvent where
  | setStateRoot (root : Nat)
  | getTotalDifficulty (blockHash : Nat)
  | createBuilder (number : Int) (gasLimit : Int) (baseFeePerGas : Option Int)
  | applyTx (txHash : Nat)
deriving DecidableEq, Repr

/-- the parent block fields `start` reads: `header.number`,
`header.gasLimit`, `header.stateRoot`, and `hash()`. -/
structure ParentBlock where
  number : Int
  gasLimit : Int
  stateRoot : Nat
  blockHash : Nat
deriving DecidableEq, Repr

/-- the error thrown by `start` when `vm.blockchain.getTotalDifficulty` is
not a function. -/
inductive StartError where
  | configurationError
deriving DecidableEq, Repr

/-- the `start(vm, parentBlock, ...)` method.  External inputs are oracles:
`eip1559Active` is `vm._common.isActivatedEIP(1559)`, `nextBaseFee` the value
of `parentBlock.header.calcNextBaseFee()`, `hasGetTotalDifficulty` whether
`vm.blockchain.getTotalDifficulty` is a function, `pool` the
`txsByPriceAndNonce` snapshot and `payloadId` the `randomBytes(8)` draw.
Returns the engine-instruction trace, the updated registry, and the payload
id or the thrown error.  The control flow mirrors the source: compute
number/gasLimit/baseFee, reset the state root, check `getTotalDifficulty`
(throwing before any builder is created or entry pushed), create the builder,
push `(payloadId, builder)`, then run the inclusion loop which mutates the
pushed builder in place. -/
def start (eip1559Active : Bool) (nextBaseFee : Int)
    (hasGetTotalDifficulty : Bool) (applyTx : ApplyFn) (pool : List Tx)
    (parent : ParentBlock) (payloadId : PayloadId) (st : Registry) :
    List EngineEvent × Registry × Except StartError PayloadId :=
  let number := parent.number + 1
  let gasLimit := parent.gasLimit
  let baseFeePerGas := if eip1559Active then some nextBaseFee else none
  let trace0 := [EngineEvent.setStateRoot parent.stateRoot]
  if hasGetTotalDifficulty then
    let builder : BuilderState := ⟨gasLimit, baseFeePerGas, 0, []⟩
    let r := inclusionPass applyTx gasLimit builder pool
    (trace0 ++
      [EngineEvent.getTotalDifficulty parent.blockHash,
       EngineEvent.createBuilder number gasLimit baseFeePerGas] ++
      r.attempted.map (fun tx => EngineEvent.applyTx tx.hash),
     st ++ [(payloadId, r.builder)],
     .ok payloadId)
  else
    (trace0, st, .error .configurationError)

/-- an Execution Engine oracle whose `addTransaction` always raises the
exceeds-remaining-block-gas error. -/
def rejectAllApply : ApplyFn := fun _ _ => .err .gasLimitExceedsRemaining

/-- a candidate transaction declaring 29999000 gas. -/
def txA : Tx := ⟨1, 29999000⟩

/-- a candidate transaction declaring 21000 gas. -/
def txB : Tx := ⟨2, 21000⟩

/-- a builder with exactly 21000 gas remaining out of 30000000. -/
def bEdge : BuilderState := ⟨30000000, none, 29979000, []⟩

/-- a builder with only 1000 gas remaining out of 30000000. -/
def bFull : BuilderState := ⟨30000000, none, 29999000, []⟩

/-- an Execution Engine oracle whose `addTransaction` always succeeds and
leaves the builder unchanged. -/
def okApply : ApplyFn := fun b _ => .ok b

/-- an Execution Engine oracle whose `addTransaction` always fails with an
error other than the exceeds-remaining-block-gas one. -/
def otherErrApply : ApplyFn := fun _ _ => .err (.other 0)

/-- a fresh builder: 30000000 gas limit, nothing applied yet. -/
def bZero : BuilderState := ⟨30000000, none, 0, []⟩

/-- a second distinct builder handle, for duplicate-id scenarios. -/
def bZero2 : BuilderState := ⟨30000000, none, 1, []⟩

/-- a finalize oracle (`builder.build()`) that always succeeds. -/
def finalizeOk : BuilderState → Option Nat := fun _ => some 0

/-- a finalize oracle (`builder.build()`) that always fails. -/
def finalizeFail : BuilderState → Option Nat := fun _ => none

theorem find?_filter_ne (st : Registry) (pid : PayloadId) :
    (st.filter (fun p => !(p.1 == pid))).find? (fun p => p.1 == pid) = none := by
  rw [List.find?_eq_none]
  intro x hx
  have := List.of_mem_filter hx
  simpa using this

theorem attempted_mem (applyTx : ApplyFn) (gasLimit : Int) :
    ∀ (b : BuilderState) (l : List Tx) (tx : Tx),
      tx ∈ (inclusionPass applyTx gasLimit b l).attempted → tx ∈ l := by
  intro b l
  induction l generalizing b with
  | nil => intro tx h; simp [inclusionPass] at h
  | cons hd tl ih =>
    intro tx h
    cases hap : applyTx b hd with
    | ok b' =>
      simp only [inclusionPass, hap, List.mem_cons] at h
      rcases h with h | h
      · simp [h]
      · exact List.mem_cons_of_mem _ (ih b' tx h)
    | err e =>
      cases e with
      | gasLimitExceedsRemaining =>
        simp only [inclusionPass, hap] at h
        split at h
        · simp only [List.mem_singleton] at h; simp [h]
        · simp only [List.mem_cons] at h
          rcases h with h | h
          · simp [h]
          · exact List.mem_cons_of_mem _ (ih b tx h)
      | other code =>
        simp only [inclusionPass, hap, List.mem_cons] at h
        rcases h with h | h
        · simp [h]
        · exact List.mem_cons_of_mem _ (ih b tx h)

theorem setBuilderFirst_find (b : BuilderState) :
    ∀ (st : Registry) (pid : PayloadId) (e : PayloadId × BuilderState),
      st.find? (fun p => p.1 == pid) = some e →
      (setBuilderFirst st pid b).find? (fun p => p.1 == pid) = some (e.1, b) := by
  intro st
  induction st with
  | nil => intro pid e h; simp at h
  | cons hd tl ih =>
    intro pid e h
    by_cases hc : (hd.1 == pid) = true
    · rw [List.find?_cons_of_pos (p := fun p => p.1 == pid) tl hc] at h
      cases h
      simp only [setBuilderFirst]
      rw [if_pos hc]
      exact List.find?_cons_of_pos (p := fun p => p.1 == pid) (a := (hd.1, b)) tl hc
    · rw [List.find?_cons_of_neg (p := fun p => p.1 == pid) tl hc] at h
      simp only [setBuilderFirst]
      rw [if_neg hc]
      rw [List.find?_cons_of_neg (p := fun p => p.1 == pid) (setBuilderFirst tl pid b) hc]
      exact ih pid e h

theorem build_found_not_notFound (applyTx : ApplyFn)
    (finalize : BuilderState → Option Nat) (pool : List Tx) (st : Registry)
    (pid : PayloadId) (e : PayloadId × BuilderState)
    (hfind : st.find? (fun p => p.1 == pid) = some e) :
    (build applyTx finalize pool st pid).2.1 ≠ .notFound := by
  simp only [build, hfind]
  split <;> simp

/-- Claim C1 counterexample: with gas limit 30000000 and gas used 29979000 the
remaining gas is exactly 21000, so the claim demands the block be classified
FULL with no further candidate attempted; the code instead leaves `blockFull`
false and attempts the next candidate. -/
theorem inclusionPass_full_at_21000_remaining_refuted :
    (bEdge.blockGasLimit - bEdge.gasUsed ≤ 21000)
    ∧ rejectAllApply bEdge txA = .err .gasLimitExceedsRemaining
    ∧ inclusionPass rejectAllApply 30000000 bEdge [txA, txB]
      = ⟨bEdge, false, [txA, txB]⟩ := by
  decide

/-- Claim C1 (amended): when applying a candidate fails with the
exceeds-remaining-block-gas error, the block is classified FULL and the pass
terminates exactly when `gasLimit - gasUsed < 21000` (strictly less); when
`gasLimit - gasUsed ≥ 21000` the candidate is skipped and the pass continues
with the remaining candidates. -/
theorem inclusionPass_full_strict_boundary (applyTx : ApplyFn) (gasLimit : Int)
    (b : BuilderState) (tx : Tx) (rest : List Tx)
    (h : applyTx b tx = .err .gasLimitExceedsRemaining) :
    (gasLimit - b.gasUsed < 21000 →
      inclusionPass applyTx gasLimit b (tx :: rest) = ⟨b, true, [tx]⟩)
    ∧ (21000 ≤ gasLimit - b.gasUsed →
      inclusionPass applyTx gasLimit b (tx :: rest) =
        ⟨(inclusionPass applyTx gasLimit b rest).builder,
         (inclusionPass applyTx gasLimit b rest).blockFull,
         tx :: (inclusionPass applyTx gasLimit b rest).attempted⟩) := by
  constructor <;> intro hg <;> simp only [inclusionPass, h] <;> split
  · rfl
  · omega
  · omega
  · rfl

/-- Claim C1 witness: concrete instances of both branches of the amended
classification. -/
theorem inclusionPass_full_strict_boundary_witness :
    (inclusionPass rejectAllApply 30000000 bFull [txA, txB]
        = ⟨bFull, true, [txA]⟩)
    ∧ (inclusionPass rejectAllApply 30000000 bEdge [txA, txB]
      = ⟨(inclusionPass rejectAllApply 30000000 bEdge [txB]).builder,
         (inclusionPass rejectAllApply 30000000 bEdge [txB]).blockFull,
         txA :: (inclusionPass rejectAllApply 30000000 bEdge
           [txB]).attempted⟩) := by
  constructor
  · exact (inclusionPass_full_strict_boundary rejectAllApply 30000000
      bFull txA [txB] (by decide)).1 (by decide)
  · exact (inclusionPass_full_strict_boundary rejectAllApply 30000000
      bEdge txA [txB] (by decide)).2 (by decide)

/-- Claim C2: a successful `build(id)` removes the payload from the registry,
so a subsequent `build(id)` on the resulting registry returns `NotFound`, and
`build(id)` on any registry holding no entry for the id also returns
`NotFound`. -/
theorem build_at_most_once (applyTx applyTx' : ApplyFn)
    (finalize finalize' : BuilderState → Option Nat)
    (pool pool' : List Tx) (st st' : Registry) (pid : PayloadId)
    (blk : Nat) (att : List Tx)
    (h : build applyTx finalize pool st pid = (st', .ok blk, att)) :
    (build applyTx' finalize' pool' st' pid).2.1 = .notFound
    ∧ ∀ st0 : Registry, st0.find? (fun p => p.1 == pid) = none →
        (build applyTx' finalize' pool' st0 pid).2.1 = .notFound := by
  constructor
  · simp only [build] at h
    rcases hf : st.find? (fun p => p.1 == pid) with _ | payload <;> rw [hf] at h
    · simp at h
    · simp only at h
      rcases hfin : finalize (inclusionPass applyTx payload.2.blockGasLimit
          payload.2 (dedupAgainstIncluded payload.2.transactions pool)).builder
        with _ | blk' <;> rw [hfin] at h
      · simp at h
      · simp only [Prod.mk.injEq] at h
        obtain ⟨h1, _, _⟩ := h
        rw [← h1]
        simp only [build, find?_filter_ne]
  · intro st0 h0
    simp only [build, h0]

/-- Claim C2 witness: a concrete successful `build` on a one-entry registry,
after which `build` on the resulting registry and `build` on a registry
without the id both return `NotFound`. -/
theorem build_at_most_once_witness :
    build okApply finalizeOk [] [([0], bZero)] [0]
      = (([] : Registry), .ok 0, ([] : List Tx))
    ∧ (build okApply finalizeOk [] ([] : Registry) [0]).2.1 = .notFound
    ∧ (build okApply finalizeOk [] ([([9], bZero)] : Registry) [0]).2.1
        = .notFound := by
  have h := build_at_most_once okApply okApply finalizeOk finalizeOk [] []
    [([0], bZero)] [] [0] 0 [] (by decide)
  exact ⟨by decide, h.1, h.2 [([9], bZero)] (by decide)⟩

/-- Claim C3: when the finalize step (`builder.build()`) fails during
`build(id)`, the call reports the fatal failure and the payload is not
removed: the resulting registry still holds an entry under the id (with the
builder mutated by the top-up pass), so a later `build(id)` on it does not
return `NotFound`. -/
theorem build_finalize_failure_keeps_payload (applyTx : ApplyFn)
    (finalize : BuilderState → Option Nat) (pool : List Tx) (st : Registry)
    (pid : PayloadId) (e : PayloadId × BuilderState)
    (hfind : st.find? (fun p => p.1 == pid) = some e)
    (hfail : finalize (inclusionPass applyTx e.2.blockGasLimit e.2
        (dedupAgainstIncluded e.2.transactions pool)).builder = none) :
    (build applyTx finalize pool st pid).2.1 = .fatal
    ∧ ((build applyTx finalize pool st pid).1).find? (fun p => p.1 == pid)
        = some (e.1, (inclusionPass applyTx e.2.blockGasLimit e.2
            (dedupAgainstIncluded e.2.transactions pool)).builder)
    ∧ ∀ (applyTx' : ApplyFn) (finalize' : BuilderState → Option Nat)
        (pool' : List Tx),
        (build applyTx' finalize' pool'
          (build applyTx finalize pool st pid).1 pid).2.1 ≠ .notFound := by
  have hb : build applyTx finalize pool st pid
      = (setBuilderFirst st pid (inclusionPass applyTx e.2.blockGasLimit e.2
            (dedupAgainstIncluded e.2.transactions pool)).builder, .fatal,
         (inclusionPass applyTx e.2.blockGasLimit e.2
            (dedupAgainstIncluded e.2.transactions pool)).attempted) := by
    simp only [build, hfind, hfail]
  have hf2 : ((build applyTx finalize pool st pid).1).find?
      (fun p => p.1 == pid)
      = some (e.1, (inclusionPass applyTx e.2.blockGasLimit e.2
          (dedupAgainstIncluded e.2.transactions pool)).builder) := by
    rw [hb]
    exact setBuilderFirst_find _ st pid e hfind
  refine ⟨by rw [hb], hf2, ?_⟩
  intro applyTx' finalize' pool'
  exact build_found_not_notFound applyTx' finalize' pool' _ pid _ hf2

/-- Claim C3 witness: concrete `build` with a failing finalize oracle on a
one-entry registry. -/
theorem build_finalize_failure_keeps_payload_witness :
    (([([0], bZero)] : Registry).find? (fun p => p.1 == [0])
        = some ([0], bZero))
    ∧ finalizeFail (inclusionPass okApply bZero.blockGasLimit bZero
        (dedupAgainstIncluded bZero.transactions [])).builder = none
    ∧ (build okApply finalizeFail [] [([0], bZero)] [0]).2.1 = .fatal
    ∧ ((build okApply finalizeFail [] [([0], bZero)] [0]).1).find?
        (fun p => p.1 == [0])
        = some ([0], (inclusionPass okApply bZero.blockGasLimit bZero
            (dedupAgainstIncluded bZero.transactions [])).builder)
    ∧ (build okApply finalizeOk []
        (build okApply finalizeFail [] [([0], bZero)] [0]).1 [0]).2.1
        ≠ .notFound := by
  have h := build_finalize_failure_keeps_payload okApply finalizeFail []
    [([0], bZero)] [0] ([0], bZero) (by decide) rfl
  exact ⟨by decide, rfl, h.1, h.2.1, h.2.2 okApply finalizeOk []⟩

/-- Claim C4: an application failure other than the
exceeds-remaining-block-gas condition makes the pass skip that transaction
and continue with the next candidate, and such failures never surface to the
caller: with the payload registered and a finalize step that does not fail,
`build` returns a block whatever the per-transaction failures were, and
`start` (with `getTotalDifficulty` available) returns the payload id. -/
theorem txRejected_skipped_never_surfaced (applyTx : ApplyFn) (gasLimit : Int)
    (b : BuilderState) (tx : Tx) (rest : List Tx) (code : Nat)
    (finalize : BuilderState → Option Nat) (pool : List Tx) (st : Registry)
    (pid : PayloadId)
    (h1 : applyTx b tx = .err (.other code))
    (h2 : ∀ bs, (finalize bs).isSome = true)
    (h3 : (st.find? (fun p => p.1 == pid)).isSome = true) :
    inclusionPass applyTx gasLimit b (tx :: rest)
      = ⟨(inclusionPass applyTx gasLimit b rest).builder,
         (inclusionPass applyTx gasLimit b rest).blockFull,
         tx :: (inclusionPass applyTx gasLimit b rest).attempted⟩
    ∧ (∃ blk, (build applyTx finalize pool st pid).2.1 = .ok blk)
    ∧ ∀ (eipA : Bool) (nbf : Int) (parent : ParentBlock) (pid' : PayloadId)
        (st0 : Registry),
        (start eipA nbf true applyTx pool parent pid' st0).2.2 = .ok pid' := by
  refine ⟨by simp only [inclusionPass, h1], ?_, ?_⟩
  · obtain ⟨e, he⟩ := Option.isSome_iff_exists.mp h3
    rcases hf : finalize (inclusionPass applyTx e.2.blockGasLimit e.2
        (dedupAgainstIncluded e.2.transactions pool)).builder with _ | blk
    · have := h2 (inclusionPass applyTx e.2.blockGasLimit e.2
        (dedupAgainstIncluded e.2.transactions pool)).builder
      rw [hf] at this
      simp at this
    · exact ⟨blk, by simp only [build, he, hf]⟩
  · intro eipA nbf parent pid' st0
    simp [start]

/-- Claim C4 witness: a concrete pass over an engine rejecting every
transaction with a generic error, and a concrete `build` that still returns a
block. -/
theorem txRejected_skipped_never_surfaced_witness :
    otherErrApply bZero txA = .err (.other 0)
    ∧ (∀ bs, (finalizeOk bs).isSome = true)
    ∧ (([([0], bZero)] : Registry).find? (fun p => p.1 == [0])).isSome = true
    ∧ inclusionPass otherErrApply 30000000 bZero [txA]
        = ⟨(inclusionPass otherErrApply 30000000 bZero []).builder,
           (inclusionPass otherErrApply 30000000 bZero []).blockFull,
           txA :: (inclusionPass otherErrApply 30000000 bZero []).attempted⟩
    ∧ ∃ blk, (build otherErrApply finalizeOk [] [([0], bZero)] [0]).2.1
        = .ok blk := by
  have h := txRejected_skipped_never_surfaced otherErrApply 30000000 bZero
    txA [] 0 finalizeOk [] [([0], bZero)] [0] (by decide) (fun bs => rfl)
    (by decide)
  exact ⟨by decide, fun bs => rfl, by decide, h.1, h.2.1⟩

/-- Claim C5: the top-up pass of `build(id)` only ever attempts candidates
whose hash differs from every transaction already included in the payload's
builder. -/
theorem build_attempts_only_unincluded_hashes (applyTx : ApplyFn)
    (finalize : BuilderState → Option Nat) (pool : List Tx) (st : Registry)
    (pid : PayloadId) (e : PayloadId × BuilderState)
    (hfind : st.find? (fun p => p.1 == pid) = some e) :
    ((build applyTx finalize pool st pid).2.2).all
      (fun tx => !(e.2.transactions.any (fun t => t.hash == tx.hash)))
      = true := by
  have hatt : (build applyTx finalize pool st pid).2.2
      = (inclusionPass applyTx e.2.blockGasLimit e.2
          (dedupAgainstIncluded e.2.transactions pool)).attempted := by
    simp only [build, hfind]
    split <;> rfl
  rw [hatt, List.all_eq_true]
  intro tx htx
  have hmem := attempted_mem applyTx e.2.blockGasLimit e.2 _ tx htx
  simp only [dedupAgainstIncluded] at hmem
  exact (List.mem_filter.mp hmem).2

/-- Claim C5 witness: a pool resupplying an already-included transaction next
to a new one; only the new transaction is attempted. -/
theorem build_attempts_only_unincluded_hashes_witness :
    (([([0], ⟨30000000, none, 21000, [txB]⟩)] : Registry).find?
        (fun p => p.1 == [0]) = some ([0], ⟨30000000, none, 21000, [txB]⟩))
    ∧ ((build okApply finalizeOk [txB, txA]
          [([0], ⟨30000000, none, 21000, [txB]⟩)] [0]).2.2).all
        (fun tx => !((⟨30000000, none, 21000, [txB]⟩ :
            BuilderState).transactions.any (fun t => t.hash == tx.hash)))
        = true
    ∧ (build okApply finalizeOk [txB, txA]
          [([0], ⟨30000000, none, 21000, [txB]⟩)] [0]).2.2 = [txA] := by
  refine ⟨by decide, ?_, by decide⟩
  exact build_attempts_only_unincluded_hashes okApply finalizeOk [txB, txA]
    [([0], ⟨30000000, none, 21000, [txB]⟩)] [0]
    ([0], ⟨30000000, none, 21000, [txB]⟩) (by decide)

/-- Claim C6: `stop(id)` is a total function of the registry that ignores the
revert outcome entirely; on an absent id it leaves the registry unchanged, on
a present id it removes every byte-equal entry; afterwards no entry under the
id remains and `build(id)` returns `NotFound`. -/
theorem stop_never_errors_and_terminal (ro ro' : RevertOutcome)
    (st : Registry) (pid : PayloadId) (applyTx : ApplyFn)
    (finalize : BuilderState → Option Nat) (pool : List Tx) :
    stop ro st pid = stop ro' st pid
    ∧ (st.find? (fun p => p.1 == pid) = none → stop ro st pid = st)
    ∧ (∀ e, st.find? (fun p => p.1 == pid) = some e →
        stop ro st pid = st.filter (fun p => !(p.1 == pid)))
    ∧ (stop ro st pid).find? (fun p => p.1 == pid) = none
    ∧ (build applyTx finalize pool (stop ro st pid) pid).2.1 = .notFound := by
  have h4 : (stop ro st pid).find? (fun p => p.1 == pid) = none := by
    rcases hf : st.find? (fun p => p.1 == pid) with _ | e
    · simp only [stop, hf]
    · simp only [stop, hf]
      exact find?_filter_ne st pid
  refine ⟨rfl, ?_, ?_, h4, ?_⟩
  · intro h0
    simp only [stop, h0]
  · intro e he
    simp only [stop, he]
  · simp only [build, h4]

/-- Claim C6 witness: stopping a present id removes its entry and a
subsequent `build` returns `NotFound`; stopping an absent id is a no-op;
the revert outcome is irrelevant. -/
theorem stop_never_errors_and_terminal_witness :
    stop .failed [([1], bZero)] [1] = stop .succeeded [([1], bZero)] [1]
    ∧ stop .failed [([1], bZero)] [1]
        = ([([1], bZero)] : Registry).filter (fun p => !(p.1 == [1]))
    ∧ (build okApply finalizeOk [] (stop .failed [([1], bZero)] [1])
        [1]).2.1 = .notFound
    ∧ stop .failed [([1], bZero)] [9] = [([1], bZero)] := by
  have h := stop_never_errors_and_terminal .failed .succeeded [([1], bZero)]
    [1] okApply finalizeOk []
  have h9 := stop_never_errors_and_terminal .failed .succeeded [([1], bZero)]
    [9] okApply finalizeOk []
  exact ⟨h.1, h.2.2.1 ([1], bZero) (by decide), h.2.2.2.2,
    h9.2.1 (by decide)⟩

/-- Claim C7: the builder-creation instruction issued by `start` carries a
base fee that is `some` of the parent's next base fee exactly when the
fee-market upgrade (EIP-1559) is active, and is `none` otherwise; the header
also carries `parent.number + 1` and the parent's gas limit. -/
theorem start_baseFee_iff_eip1559 (eipA : Bool) (nbf : Int)
    (applyTx : ApplyFn) (pool : List Tx) (parent : ParentBlock)
    (pid : PayloadId) (st : Registry) :
    EngineEvent.createBuilder (parent.number + 1) parent.gasLimit
        (if eipA then some nbf else none)
      ∈ (start eipA nbf true applyTx pool parent pid st).1
    ∧ (Option.isSome (if eipA then some nbf else none : Option Int))
        = eipA := by
  constructor
  · simp [start]
  · cases eipA <;> simp

/-- Claim C8: when the chain-state capability `getTotalDifficulty` is
unavailable, `start` throws the configuration error, leaves the registry
untouched, and its trace shows that no builder was created and no
transaction applied: only the state-root reset happened. -/
theorem start_configuration_error_before_builder (eipA : Bool) (nbf : Int)
    (applyTx : ApplyFn) (pool : List Tx) (parent : ParentBlock)
    (pid : PayloadId) (st : Registry) :
    start eipA nbf false applyTx pool parent pid st
      = ([EngineEvent.setStateRoot parent.stateRoot], st,
         .error .configurationError) := by
  simp [start]

/-- Claim C9: the very first instruction of every `start` call — whether the
configuration check passes or not — is the reset of the engine's world state
to the parent's post-state root; the builder creation and every transaction
application can only appear later in the trace. -/
theorem start_resets_state_root_first (eipA : Bool) (nbf : Int)
    (hasGTD : Bool) (applyTx : ApplyFn) (pool : List Tx)
    (parent : ParentBlock) (pid : PayloadId) (st : Registry) :
    ∃ rest, (start eipA nbf hasGTD applyTx pool parent pid st).1
      = EngineEvent.setStateRoot parent.stateRoot :: rest := by
  cases hasGTD with
  | false => exact ⟨[], by simp [start]⟩
  | true =>
    exact ⟨EngineEvent.getTotalDifficulty parent.blockHash ::
      EngineEvent.createBuilder (parent.number + 1) parent.gasLimit
        (if eipA then some nbf else none) ::
      (inclusionPass applyTx parent.gasLimit
        ⟨parent.gasLimit, if eipA then some nbf else none, 0, []⟩
        pool).attempted.map (fun tx => EngineEvent.applyTx tx.hash),
      by simp [start]⟩

/-- Claim C10: registry removal is exhaustive per id: after `stop(id)`
returns, and after any successful `build(id)`, no entry with a byte-equal id
remains — the filter removes every matching entry, including duplicates. -/
theorem registry_removal_exhaustive (ro : RevertOutcome) (st : Registry)
    (pid : PayloadId) (applyTx : ApplyFn)
    (finalize : BuilderState → Option Nat) (pool : List Tx) :
    (stop ro st pid).all (fun p => !(p.1 == pid)) = true
    ∧ ∀ (st' : Registry) (blk : Nat) (att : List Tx),
        build applyTx finalize pool st pid = (st', .ok blk, att) →
        st'.all (fun p => !(p.1 == pid)) = true := by
  constructor
  · rcases hf : st.find? (fun p => p.1 == pid) with _ | e
    · simp only [stop, hf]
      rw [List.all_eq_true]
      intro x hx
      have := List.find?_eq_none.mp hf x hx
      simpa using this
    · simp only [stop, hf]
      rw [List.all_eq_true]
      intro x hx
      exact (List.mem_filter.mp hx).2
  · intro st' blk att h
    simp only [build] at h
    rcases hf : st.find? (fun p => p.1 == pid) with _ | e <;> rw [hf] at h
    · simp at h
    · simp only at h
      rcases hfin : finalize (inclusionPass applyTx e.2.blockGasLimit e.2
          (dedupAgainstIncluded e.2.transactions pool)).builder
        with _ | blk' <;> rw [hfin] at h
      · simp at h
      · simp only [Prod.mk.injEq] at h
        obtain ⟨h1, _, _⟩ := h
        rw [← h1, List.all_eq_true]
        intro x hx
        exact (List.mem_filter.mp hx).2

/-- Claim C10 witness: a registry holding two entries under the same 8-byte
id; one `stop` call removes both, and a successful `build` removes both. -/
theorem registry_removal_exhaustive_witness :
    build okApply finalizeOk [] [([0], bZero), ([0], bZero2)] [0]
      = (([] : Registry), .ok 0, ([] : List Tx))
    ∧ (stop .failed [([0], bZero), ([0], bZero2)] [0]).all
        (fun p => !(p.1 == [0])) = true
    ∧ ([] : Registry).all (fun p => !(p.1 == [0])) = true := by
  have h := registry_removal_exhaustive .failed
    [([0], bZero), ([0], bZero2)] [0] okApply finalizeOk []
  exact ⟨by decide, h.1, h.2 [] 0 [] (by decide)⟩

end PendingBlock
